import Mathlib

/-!
Verification of the `instant-distance-py` binding layer
(`src/instant-distance-py/src/lib.rs`).

Shallow embedding conventions:
* 32-bit floats are modelled as exact rationals (`ℚ`): the development
  tracks the accumulation structure of the numeric kernels, abstracting
  IEEE rounding.
* Python objects flowing into a point conversion are modelled as
  `Except PyErr ℚ`: an item is either a value extractable as a float or
  the error that its iteration/extraction raises.
* Fallible operations return `Except`.
* Parts of the program that live in the external `instant-distance`
  engine crate (not in this repository slice) are modelled from the
  spec; each such definition carries a doc comment starting
  `Modelled from the spec:`.
-/

set_option maxRecDepth 20000

namespace InstantDistance

/-- The fixed dimensionality of points (`const DIMENSIONS: usize = 300`). -/
abbrev DIMENSIONS : Nat := 300

/-- Errors surfaced to Python (`PyErr`): the binding raises `PyTypeError`
and `PyValueError`, and propagates OS/I-O errors from `File` operations. -/
inductive PyErr where
  | typeError (msg : String)
  | valueError (msg : String)
  | osError (msg : String)
  deriving DecidableEq, Repr

/-- `struct FloatArray([f32; DIMENSIONS])`: a fixed-length array of 300
floats, here a list of rationals with a length invariant. -/
structure FloatArray where
  data : List ℚ
  hlen : data.length = DIMENSIONS

instance : DecidableEq FloatArray := fun a b =>
  if h : a.data = b.data then
    .isTrue (by cases a; cases b; cases h; rfl)
  else
    .isFalse (fun he => h (congrArg FloatArray.data he))

/-- Read coordinate `i` of a float array (always in bounds at use sites;
`getD` supplies an unused default). -/
def FloatArray.get (a : FloatArray) (i : Nat) : ℚ :=
  a.data.getD i 0

/-- Recursive core of `TryFrom<&PyAny> for FloatArray`: iterate the input
items with their index `i`, erroring as soon as `i >= DIMENSIONS`, else
writing the extracted value (or propagating its extraction error) into
slot `i` of the array being built (started as `[0.0; DIMENSIONS]`). -/
def FloatArray.tryFromAux : List (Except PyErr ℚ) → Nat → List ℚ →
    Except PyErr FloatArray
  | [], _, new =>
      if h : new.length = DIMENSIONS then .ok ⟨new, h⟩
      else .error (.typeError "internal length invariant broken")
  | v :: rest, i, new =>
      if DIMENSIONS ≤ i then .error (.typeError "point array too long")
      else
        match v with
        | .error e => .error e
        | .ok x => FloatArray.tryFromAux rest (i + 1) (new.set i x)

/-- `FloatArray::try_from(value: &PyAny)`: start from a zero-filled array
and fill it from the iterated items. -/
def FloatArray.tryFrom (value : List (Except PyErr ℚ)) : Except PyErr FloatArray :=
  FloatArray.tryFromAux value 0 (List.replicate DIMENSIONS 0)

/-- The 8-lane accumulation loop of `Point::distance for FloatArray`:
`for (lh_slice, rh_slice) in self.0.chunks_exact(8).zip(rhs.0.chunks_exact(8))`
with `acc_8x = _mm256_fmadd_ps(diff, diff, acc_8x)`. 300 elements give 37
full chunks; the loop is a left fold over the chunk indices, each lane `j`
accumulating `(a[8c+j] - b[8c+j])^2`. -/
def simdLoop (a b : FloatArray) : Fin 8 → ℚ :=
  (List.range 37).foldl
    (fun acc c => fun j : Fin 8 =>
      (a.get (8 * c + j.val) - b.get (8 * c + j.val)) *
        (a.get (8 * c + j.val) - b.get (8 * c + j.val)) + acc j)
    (fun _ => 0)

/-- `Point::distance for FloatArray`: the squared-Euclidean SIMD kernel.
After the 8-wide loop, the upper and lower 128-bit halves of the 8-wide
accumulator are summed into a 4-wide accumulator
(`_mm256_extractf128_ps` / `_mm256_castps256_ps128` / `_mm_add_ps`), the
last four coordinates (`self.0[DIMENSIONS - 4..]`) are folded in by a
4-wide fused multiply-add, and the 4 lanes are horizontally reduced
(`_mm_movehl_ps`, `_mm_add_ps`, `_mm_shuffle_ps 0x1`, `_mm_add_ss`),
lane 0 being the scalar result (`_mm_cvtss_f32`). -/
def FloatArray.distance (a b : FloatArray) : ℚ :=
  let acc8 : Fin 8 → ℚ := simdLoop a b
  let acc4 : Fin 4 → ℚ := fun j =>
    acc8 ⟨j.val + 4, by omega⟩ + acc8 ⟨j.val, by omega⟩
  let fma4 : Fin 4 → ℚ := fun j =>
    (a.get (DIMENSIONS - 4 + j.val) - b.get (DIMENSIONS - 4 + j.val)) *
      (a.get (DIMENSIONS - 4 + j.val) - b.get (DIMENSIONS - 4 + j.val)) + acc4 j
  let lower : Fin 4 → ℚ := fun j => fma4 ⟨2 + j.val % 2, by omega⟩
  let summed : Fin 4 → ℚ := fun j => fma4 j + lower j
  let upper : Fin 4 → ℚ := fun j =>
    summed ⟨if j.val = 0 then 1 else 0, by split <;> omega⟩
  summed 0 + upper 0

/-- `struct Candidate` (pyclass): dense id (`u32`, modelled `Nat`) and
distance of one result. -/
structure Candidate where
  pid : Nat
  distance : ℚ
  deriving DecidableEq

/-- Modelled from the spec: a ranked result produced by the external
engine's search — an `(InternalId, distance)` pair (§6); `pid.into_inner()`
yields the dense integer id. -/
structure EngineCandidate where
  pid : Nat
  distance : ℚ
  deriving DecidableEq

/-- `struct Search { inner: instant_distance::Search, cur: Option<usize> }`:
the engine-side buffer, observable through the ranked results of the last
completed query (`inner.get(idx)`), plus the read cursor `cur`. -/
structure Search where
  results : List EngineCandidate
  cur : Option Nat
  deriving DecidableEq

/-- `Search::new()`: empty buffer, no cursor. -/
def Search.new : Search :=
  { results := [], cur := none }

/-- `PyIterProtocol::__next__ for Search`: with no cursor, yield nothing;
otherwise look the cursor position up in the buffer with the
`Option`-returning `get`; a miss clears the cursor and yields nothing, a
hit advances the cursor and yields the `Candidate`. -/
def Search.next (s : Search) : Option Candidate × Search :=
  match s.cur with
  | none => (none, s)
  | some idx =>
    match s.results[idx]? with
    | none => (none, { s with cur := none })
    | some c => (some ⟨c.pid, c.distance⟩, { s with cur := some (idx + 1) })

/-- Modelled from the spec: the external engine's state owned by the
binding's `Hnsw` — "the engine's point and graph storage" (§6) together
with the `ef_search` width fixed at build time ("writing up to `ef_search`
ranked results", §4.3). -/
structure Hnsw where
  points : List FloatArray
  graph : List (List Nat)
  efSearch : Nat
  deriving DecidableEq

instance : DecidableRel
    (fun c₁ c₂ : EngineCandidate => c₁.distance ≤ c₂.distance) :=
  fun c₁ c₂ => inferInstanceAs (Decidable (c₁.distance ≤ c₂.distance))

/-- Modelled from the spec: the engine's deterministic search — "ranked
candidates ascending by distance" (§4.3/§6), deterministic tie order
(stable sort by dense id), writing up to `ef_search` results into the
buffer. -/
def Hnsw.searchResults (h : Hnsw) (probe : FloatArray) : List EngineCandidate :=
  (List.insertionSort (fun c₁ c₂ : EngineCandidate => c₁.distance ≤ c₂.distance)
      (h.points.enum.map fun p =>
        { pid := p.1, distance := FloatArray.distance probe p.2 })).take
    h.efSearch

/-- `Hnsw::search(&self, point: &PyAny, search: &mut Search)`: convert the
probe first (`FloatArray::try_from(point)?`), returning any conversion
error before the buffer is touched; on success run the engine search into
the buffer and set the cursor to 0. -/
def Hnsw.search (h : Hnsw) (point : List (Except PyErr ℚ)) (s : Search) :
    Except PyErr Unit × Search :=
  match FloatArray.tryFrom point with
  | .error e => (.error e, s)
  | .ok p => (.ok (), { results := h.searchResults p, cur := some 0 })

/-- Modelled from the spec: one symbol of the persisted byte stream
(byte-level packing abstracted: one symbol per encoded natural). -/
def encodeNat (n : Nat) : List Nat :=
  [n]

/-- Decoder for one natural from the stream. -/
def decodeNat : List Nat → Except String (Nat × List Nat)
  | [] => .error "unexpected end of input"
  | n :: rest => .ok (n, rest)

/-- Modelled from the spec: signed-integer encoding (tag plus magnitude)
inside the self-describing binary format (§6). -/
def encodeInt : Int → List Nat
  | .ofNat n => 0 :: encodeNat n
  | .negSucc n => 1 :: encodeNat n

/-- Decoder for one integer from the stream. -/
def decodeInt : List Nat → Except String (Int × List Nat)
  | 0 :: rest =>
      match decodeNat rest with
      | .error e => .error e
      | .ok (n, r) => .ok (Int.ofNat n, r)
  | 1 :: rest =>
      match decodeNat rest with
      | .error e => .error e
      | .ok (n, r) => .ok (Int.negSucc n, r)
  | _ => .error "invalid integer tag"

/-- Modelled from the spec: encoding of one float value (a rational in
this embedding: numerator then denominator). -/
def encodeRat (q : ℚ) : List Nat :=
  encodeInt q.num ++ encodeNat q.den

/-- Decoder for one rational from the stream. -/
def decodeRat (l : List Nat) : Except String (ℚ × List Nat) :=
  match decodeInt l with
  | .error e => .error e
  | .ok (n, r₁) =>
    match decodeNat r₁ with
    | .error e => .error e
    | .ok (d, r₂) => .ok ((n : ℚ) / (d : ℚ), r₂)

/-- Modelled from the spec: "length-prefixed / big-array-capable
serialization" of sequences (§6) — element count, then the encoded
elements. -/
def encodeListWith (f : α → List Nat) (l : List α) : List Nat :=
  encodeNat l.length ++ (l.map f).flatten

/-- Decoder for exactly `n` consecutive elements. -/
def decodeCount (f : List Nat → Except String (α × List Nat)) :
    Nat → List Nat → Except String (List α × List Nat)
  | 0, l => .ok ([], l)
  | n + 1, l =>
      match f l with
      | .error e => .error e
      | .ok (x, r₁) =>
        match decodeCount f n r₁ with
        | .error e => .error e
        | .ok (xs, r₂) => .ok (x :: xs, r₂)

/-- Decoder for a length-prefixed sequence. -/
def decodeListWith (f : List Nat → Except String (α × List Nat))
    (l : List Nat) : Except String (List α × List Nat) :=
  match decodeNat l with
  | .error e => .error e
  | .ok (n, r) => decodeCount f n r

/-- Modelled from the spec: the 300-element point payload uses the
length-prefixed sequence encoding (`serde_big_array`, §6). -/
def encodeFloatArray (a : FloatArray) : List Nat :=
  encodeListWith encodeRat a.data

/-- Decoder for one point; a payload whose length is not `DIMENSIONS` is
structurally invalid. -/
def decodeFloatArray (l : List Nat) : Except String (FloatArray × List Nat) :=
  match decodeListWith decodeRat l with
  | .error e => .error e
  | .ok (xs, r) =>
    if h : xs.length = DIMENSIONS then .ok (⟨xs, h⟩, r)
    else .error "wrong point dimension"

/-- Modelled from the spec: the engine state serialized "as a monolithic
blob" (§6): `ef_search` width, point storage, graph storage. -/
def encodeHnsw (h : Hnsw) : List Nat :=
  encodeNat h.efSearch ++ encodeListWith encodeFloatArray h.points ++
    encodeListWith (encodeListWith encodeNat) h.graph

/-- Decoder for a persisted engine blob. -/
def decodeHnsw (l : List Nat) : Except String (Hnsw × List Nat) :=
  match decodeNat l with
  | .error e => .error e
  | .ok (ef, r₁) =>
    match decodeListWith decodeFloatArray r₁ with
    | .error e => .error e
    | .ok (pts, r₂) =>
      match decodeListWith (decodeListWith decodeNat) r₂ with
      | .error e => .error e
      | .ok (g, r₃) => .ok ({ points := pts, graph := g, efSearch := ef }, r₃)

/-- `Hnsw::dump`: serialize the owned engine state to the byte stream
(`bincode::serialize_into`, modelled by the codec above). -/
def Hnsw.dump (h : Hnsw) : List Nat :=
  encodeHnsw h

/-- `Hnsw::load(fname)`: `File::open(fname)?` propagates an I/O failure
unchanged as the raised error; a decode failure
(`bincode::deserialize_from` erring) is mapped to
`PyValueError("deserialization error: {:?}")`. The readable contents of
the named file are modelled as `Except String (List Nat)`. -/
def Hnsw.load (file : Except String (List Nat)) : Except PyErr Hnsw :=
  match file with
  | .error e => .error (.osError e)
  | .ok bytes =>
    match decodeHnsw bytes with
    | .error msg => .error (.valueError ("deserialization error: " ++ msg))
    | .ok (h, _) => .ok h

/-- `struct Heuristic` (pyclass): the two neighbor-pruning booleans. -/
structure Heuristic where
  extend_candidates : Bool
  keep_pruned : Bool
  deriving DecidableEq

/-- Modelled from the spec: the engine crate's `instant_distance::Heuristic`
value with the same two booleans, whose `Default` is
`extend_candidates = false, keep_pruned = true` (§3). -/
structure EngineHeuristic where
  extend_candidates : Bool
  keep_pruned : Bool
  deriving DecidableEq

/-- Modelled from the spec: `instant_distance::Heuristic::default()`. -/
def EngineHeuristic.default : EngineHeuristic :=
  { extend_candidates := false, keep_pruned := true }

/-- `Heuristic::new()` — the Python-visible `Heuristic()` constructor:
destructures `instant_distance::Heuristic::default()`. -/
def Heuristic.new : Heuristic :=
  let d := EngineHeuristic.default
  { extend_candidates := d.extend_candidates, keep_pruned := d.keep_pruned }

/-- `impl Default for Heuristic` in the binding. -/
def Heuristic.default : Heuristic :=
  { extend_candidates := false, keep_pruned := true }

/-- `From<Heuristic> for instant_distance::Heuristic`. -/
def Heuristic.toEngine (h : Heuristic) : EngineHeuristic :=
  { extend_candidates := h.extend_candidates, keep_pruned := h.keep_pruned }

/-- Modelled from the spec: the engine crate's `Builder` — the four
numeric knobs plus the optional heuristic selection (§4.2). -/
structure Builder where
  ef_search : Nat
  ef_construction : Nat
  ml : ℚ
  seed : Nat
  heuristic : Option EngineHeuristic
  deriving DecidableEq

/-- Modelled from the spec: `instant_distance::Builder::default()`. The
spec fixes no numeric default values, so the numerals here are
placeholders standing for the library's defaults; the theorems below
depend only on these fields being copied, never on their values. -/
def Builder.default : Builder :=
  { ef_search := 100, ef_construction := 100, ml := 1 / 2, seed := 0,
    heuristic := some EngineHeuristic.default }

/-- `Builder::into_parts()`: the four numeric fields. -/
def Builder.into_parts (b : Builder) : Nat × Nat × ℚ × Nat :=
  (b.ef_search, b.ef_construction, b.ml, b.seed)

/-- `struct Config` (pyclass). -/
structure Config where
  ef_search : Nat
  ef_construction : Nat
  ml : ℚ
  seed : Nat
  heuristic : Option Heuristic
  deriving DecidableEq

/-- `Config::new()`: the four numeric fields come from
`instant_distance::Builder::default().into_parts()`; the heuristic field
is `Some(Heuristic::default())`. -/
def Config.new : Config :=
  let parts := Builder.default.into_parts
  { ef_search := parts.1, ef_construction := parts.2.1, ml := parts.2.2.1,
    seed := parts.2.2.2, heuristic := some Heuristic.default }

/-- `From<&Config> for instant_distance::Builder`: start from the default
builder and override all four numeric knobs and the heuristic selection
(`select_heuristic(heuristic.map(|h| h.into()))`). -/
def Builder.fromConfig (c : Config) : Builder :=
  { ef_search := c.ef_search, ef_construction := c.ef_construction,
    ml := c.ml, seed := c.seed,
    heuristic := c.heuristic.map Heuristic.toEngine }

/-! ## Helper lemmas about the distance kernel -/

/-- Left-folding a per-chunk lane accumulation over `List.range n` adds, in
each lane, the sum of the per-chunk contributions to the initial value. -/
theorem foldl_step_sum (g : Nat → Fin 8 → ℚ) :
    ∀ (n : Nat) (init : Fin 8 → ℚ) (j : Fin 8),
      ((List.range n).foldl (fun acc c => fun j' : Fin 8 => g c j' + acc j') init) j
        = init j + ∑ c in Finset.range n, g c j := by
  intro n
  induction n with
  | zero => intro init j; simp
  | succ m ih =>
      intro init j
      rw [List.range_succ, List.foldl_append]
      simp only [List.foldl_cons, List.foldl_nil]
      rw [ih, Finset.sum_range_succ]
      ring

/-- Lane `j` of the 8-wide accumulator after the chunk loop holds the sum
of the squared differences at positions `8*c + j` over the 37 chunks. -/
theorem simdLoop_lane (a b : FloatArray) (j : Fin 8) :
    simdLoop a b j = ∑ c in Finset.range 37,
      (a.get (8 * c + j.val) - b.get (8 * c + j.val)) *
        (a.get (8 * c + j.val) - b.get (8 * c + j.val)) := by
  have h := foldl_step_sum
      (fun c (j' : Fin 8) =>
        (a.get (8 * c + j'.val) - b.get (8 * c + j'.val)) *
          (a.get (8 * c + j'.val) - b.get (8 * c + j'.val)))
      37 (fun _ => 0) j
  simpa [simdLoop] using h

/-- Expansion of a sum over `Finset.range 8`. -/
theorem sum_range_eight (f : Nat → ℚ) :
    ∑ x in Finset.range 8, f x
      = f 0 + f 1 + f 2 + f 3 + f 4 + f 5 + f 6 + f 7 := by
  rw [show (8 : ℕ) = 7 + 1 from rfl, Finset.sum_range_succ,
      show (7 : ℕ) = 6 + 1 from rfl, Finset.sum_range_succ,
      show (6 : ℕ) = 5 + 1 from rfl, Finset.sum_range_succ,
      show (5 : ℕ) = 4 + 1 from rfl, Finset.sum_range_succ,
      show (4 : ℕ) = 3 + 1 from rfl, Finset.sum_range_succ,
      show (3 : ℕ) = 2 + 1 from rfl, Finset.sum_range_succ,
      show (2 : ℕ) = 1 + 1 from rfl, Finset.sum_range_succ,
      show (1 : ℕ) = 0 + 1 from rfl, Finset.sum_range_succ,
      Finset.sum_range_zero]
  norm_num

/-- A sum over `range (8 * n)` regrouped into `n` chunks of 8 consecutive
positions. -/
theorem sum_range_mul_eight (g : Nat → ℚ) :
    ∀ n : Nat, ∑ i in Finset.range (8 * n), g i
      = ∑ c in Finset.range n,
          (g (8 * c) + g (8 * c + 1) + g (8 * c + 2) + g (8 * c + 3) +
            g (8 * c + 4) + g (8 * c + 5) + g (8 * c + 6) + g (8 * c + 7)) := by
  intro n
  induction n with
  | zero => simp
  | succ m ih =>
      have h8 : 8 * (m + 1) = 8 * m + 8 := by ring
      rw [h8, Finset.sum_range_add, ih, sum_range_eight (fun x => g (8 * m + x)),
        Finset.sum_range_succ]
      norm_num

/-- Expansion of a sum over `Finset.range 4`. -/
theorem sum_range_four (f : Nat → ℚ) :
    ∑ x in Finset.range 4, f x = f 0 + f 1 + f 2 + f 3 := by
  rw [show (4 : ℕ) = 3 + 1 from rfl, Finset.sum_range_succ,
      show (3 : ℕ) = 2 + 1 from rfl, Finset.sum_range_succ,
      show (2 : ℕ) = 1 + 1 from rfl, Finset.sum_range_succ,
      show (1 : ℕ) = 0 + 1 from rfl, Finset.sum_range_succ,
      Finset.sum_range_zero]
  norm_num

/-- Coordinate values of the `Fin 8` numerals. -/
theorem fin8_vals :
    ((0 : Fin 8) : ℕ) = 0 ∧ ((1 : Fin 8) : ℕ) = 1 ∧ ((2 : Fin 8) : ℕ) = 2 ∧
    ((3 : Fin 8) : ℕ) = 3 ∧ ((4 : Fin 8) : ℕ) = 4 ∧ ((5 : Fin 8) : ℕ) = 5 ∧
    ((6 : Fin 8) : ℕ) = 6 ∧ ((7 : Fin 8) : ℕ) = 7 :=
  ⟨rfl, rfl, rfl, rfl, rfl, rfl, rfl, rfl⟩

/-- Splitting the 300-coordinate sum into the SIMD bulk (`0..296`) and the
4-element remainder (`296..300`). -/
theorem sum_range_300_split (g : Nat → ℚ) :
    ∑ i in Finset.range 300, g i
      = ∑ i in Finset.range 296, g i + (g 296 + g 297 + g 298 + g 299) := by
  rw [show (300 : ℕ) = 296 + 4 from rfl, Finset.sum_range_add]
  congr 1
  rw [show (4 : ℕ) = 3 + 1 from rfl, Finset.sum_range_succ,
      show (3 : ℕ) = 2 + 1 from rfl, Finset.sum_range_succ,
      show (2 : ℕ) = 1 + 1 from rfl, Finset.sum_range_succ,
      show (1 : ℕ) = 0 + 1 from rfl, Finset.sum_range_succ,
      Finset.sum_range_zero]
  norm_num

/-- The distance kernel computes the exact sum of squared coordinate-wise
differences over all 300 positions. -/
theorem distance_eq_sum (a b : FloatArray) :
    FloatArray.distance a b
      = ∑ i in Finset.range DIMENSIONS,
          (a.get i - b.get i) * (a.get i - b.get i) := by
  have hlane := simdLoop_lane a b
  show FloatArray.distance a b
      = ∑ i in Finset.range 300, (a.get i - b.get i) * (a.get i - b.get i)
  rw [sum_range_300_split (fun i => (a.get i - b.get i) * (a.get i - b.get i)),
    show (296 : ℕ) = 8 * 37 from rfl,
    sum_range_mul_eight (fun i => (a.get i - b.get i) * (a.get i - b.get i)) 37]
  simp only [Finset.sum_add_distrib]
  simp only [FloatArray.distance, hlane, Fin.val_mk, DIMENSIONS]
  norm_num
  ring

/-- C2: `distance(a, b)` equals the sum over all 300 coordinate positions
of the squared elementwise differences, every coordinate included exactly
once; the 8-wide loop's lanes jointly cover positions `0..296`, the 4-wide
remainder path covers `296..300`, and the kernel's horizontal reduction
sums the two partial sums into the one scalar result. -/
theorem distance_covers_every_coordinate (a b : FloatArray) :
    FloatArray.distance a b
      = ∑ i in Finset.range DIMENSIONS, (a.get i - b.get i) ^ 2 ∧
    (∑ j : Fin 8, simdLoop a b j)
      = ∑ i in Finset.range 296, (a.get i - b.get i) ^ 2 ∧
    FloatArray.distance a b
      = (∑ j : Fin 8, simdLoop a b j)
          + ∑ i in Finset.range 4, (a.get (296 + i) - b.get (296 + i)) ^ 2 := by
  have hbulk : (∑ j : Fin 8, simdLoop a b j)
      = ∑ i in Finset.range 296, (a.get i - b.get i) ^ 2 := by
    rw [show (296 : ℕ) = 8 * 37 from rfl,
      sum_range_mul_eight (fun i => (a.get i - b.get i) ^ 2) 37]
    rw [Fin.sum_univ_eight]
    simp only [simdLoop_lane, fin8_vals.1, fin8_vals.2.1, fin8_vals.2.2.1,
      fin8_vals.2.2.2.1, fin8_vals.2.2.2.2.1, fin8_vals.2.2.2.2.2.1,
      fin8_vals.2.2.2.2.2.2.1, fin8_vals.2.2.2.2.2.2.2,
      Finset.sum_add_distrib]
    simp only [pow_two]
    norm_num
  have htotal : FloatArray.distance a b
      = ∑ i in Finset.range DIMENSIONS, (a.get i - b.get i) ^ 2 := by
    rw [distance_eq_sum]
    apply Finset.sum_congr rfl
    intro i _
    rw [pow_two]
  refine ⟨htotal, hbulk, ?_⟩
  rw [htotal, hbulk]
  show ∑ i in Finset.range 300, (a.get i - b.get i) ^ 2 = _
  rw [sum_range_300_split (fun i => (a.get i - b.get i) ^ 2),
    sum_range_four (fun i => (a.get (296 + i) - b.get (296 + i)) ^ 2)]

/-- C5: the distance kernel is symmetric, non-negative, and zero on the
diagonal. -/
theorem distance_symm_nonneg_self (a b : FloatArray) :
    FloatArray.distance a b = FloatArray.distance b a ∧
    0 ≤ FloatArray.distance a b ∧
    FloatArray.distance a a = 0 := by
  refine ⟨?_, ?_, ?_⟩
  · rw [distance_eq_sum, distance_eq_sum]
    apply Finset.sum_congr rfl
    intro i _
    ring
  · rw [distance_eq_sum]
    apply Finset.sum_nonneg
    intro i _
    exact mul_self_nonneg _
  · rw [distance_eq_sum]
    simp

/-- C4: the result stream is the two-state machine {idle, streaming(p)}:
a new buffer is idle (`cur = none`); a successful query moves it to
streaming(0); a read in streaming(p) either yields the candidate at
position `p` and advances to streaming(p+1), or — when position `p` holds
no result — moves to idle and yields end-of-stream; every read in idle
yields end-of-stream rather than an error. -/
theorem search_stream_state_machine :
    Search.new.cur = none ∧
    (∀ (h : Hnsw) pt s u s',
      Hnsw.search h pt s = (.ok u, s') → s'.cur = some 0) ∧
    (∀ (s : Search) p c, s.cur = some p → s.results[p]? = some c →
      Search.next s
        = (some ⟨c.pid, c.distance⟩, { s with cur := some (p + 1) })) ∧
    (∀ (s : Search) p, s.cur = some p → s.results[p]? = none →
      Search.next s = (none, { s with cur := none })) ∧
    (∀ s : Search, s.cur = none → Search.next s = (none, s)) := by
  refine ⟨rfl, ?_, ?_, ?_, ?_⟩
  · intro h pt s u s' hs
    unfold Hnsw.search at hs
    cases hc : FloatArray.tryFrom pt with
    | error e => rw [hc] at hs; simp at hs
    | ok p =>
        rw [hc] at hs
        simp only [Prod.mk.injEq] at hs
        rw [← hs.2]
  · intro s p c hcur hget
    cases s with
    | mk results cur =>
        cases hcur
        simp only [Search.next]
        rw [hget]
  · intro s p hcur hget
    cases s with
    | mk results cur =>
        cases hcur
        simp only [Search.next]
        rw [hget]
  · intro s hcur
    cases s with
    | mk results cur =>
        cases hcur
        rfl

/-- Witness for C4 at concrete inputs: a one-result buffer at cursor 0
yields the candidate and advances; at cursor 1 it ends the stream and goes
idle; idle stays idle; a query on an empty index sets the cursor to 0. -/
theorem search_stream_state_machine_witness :
    Search.next { results := [⟨7, 2⟩], cur := some 0 }
      = (some ⟨7, 2⟩, { results := [⟨7, 2⟩], cur := some 1 }) ∧
    Search.next { results := [⟨7, 2⟩], cur := some 1 }
      = (none, { results := [⟨7, 2⟩], cur := none }) ∧
    Search.next { results := [⟨7, 2⟩], cur := none }
      = (none, { results := [⟨7, 2⟩], cur := none }) ∧
    ({ results := Hnsw.searchResults { points := [], graph := [], efSearch := 2 }
          (FloatArray.mk (List.replicate DIMENSIONS 0) (by simp)),
       cur := some 0 } : Search).cur = some 0 := by
  refine ⟨?_, ?_, ?_, ?_⟩
  · exact search_stream_state_machine.2.2.1
      { results := [⟨7, 2⟩], cur := some 0 } 0 ⟨7, 2⟩ rfl rfl
  · exact search_stream_state_machine.2.2.2.1
      { results := [⟨7, 2⟩], cur := some 1 } 1 rfl rfl
  · exact search_stream_state_machine.2.2.2.2
      { results := [⟨7, 2⟩], cur := none } rfl
  · exact search_stream_state_machine.2.1
      { points := [], graph := [], efSearch := 2 } [] Search.new () _ rfl

/-- C10: the read operation is total and guarded: any cursor position at
or beyond the stored result count — including a stale cursor left by an
earlier query with more results — makes the read return end-of-stream and
reset the cursor to idle, via the `Option`-returning lookup. -/
theorem next_past_end_guarded :
    ∀ (s : Search) p, s.cur = some p → s.results.length ≤ p →
      Search.next s = (none, { s with cur := none }) := by
  intro s p hcur hlen
  cases s with
  | mk results cur =>
      cases hcur
      simp only [Search.next]
      rw [List.getElem?_eq_none hlen]

/-- Witness for C10: a stale cursor (position 5) over an emptied result
buffer ends the stream and resets to idle. -/
theorem next_past_end_guarded_witness :
    Search.next { results := [], cur := some 5 }
      = (none, { results := [], cur := none }) :=
  next_past_end_guarded { results := [], cur := some 5 } 5 rfl (by simp)

/-- C6: a probe that fails conversion makes `search` return exactly that
error, with the buffer (both stored results and cursor) left unchanged. -/
theorem search_conversion_error_preserves_buffer :
    ∀ (h : Hnsw) pt (s : Search) e, FloatArray.tryFrom pt = .error e →
      Hnsw.search h pt s = (.error e, s) := by
  intro h pt s e he
  unfold Hnsw.search
  rw [he]

/-- Witness for C6: a probe whose first item raises makes `search` on a
concrete index return that error with the buffer untouched. -/
theorem search_conversion_error_preserves_buffer_witness :
    Hnsw.search { points := [], graph := [], efSearch := 2 }
        [Except.error (PyErr.typeError "bad element")]
        { results := [⟨3, 1⟩], cur := some 1 }
      = (.error (.typeError "bad element"), { results := [⟨3, 1⟩], cur := some 1 }) :=
  search_conversion_error_preserves_buffer
    { points := [], graph := [], efSearch := 2 }
    [Except.error (PyErr.typeError "bad element")]
    { results := [⟨3, 1⟩], cur := some 1 }
    (PyErr.typeError "bad element") rfl

/-! ## Point conversion: dimension enforcement and zero-padding -/

/-- If the items filled so far leave the write index exactly at
`DIMENSIONS` when a further item remains, the conversion loop fails with
the "point array too long" type error. -/
theorem tryFromAux_too_long (rest : List (Except PyErr ℚ)) :
    ∀ (qs : List ℚ) (i : Nat) (arr : List ℚ), i + qs.length = DIMENSIONS →
      rest ≠ [] →
      FloatArray.tryFromAux (qs.map Except.ok ++ rest) i arr
        = .error (.typeError "point array too long") := by
  intro qs
  induction qs with
  | nil =>
      intro i arr hi hne
      simp only [List.length_nil, Nat.add_zero] at hi
      cases rest with
      | nil => exact absurd rfl hne
      | cons v t =>
          simp only [List.map_nil, List.nil_append]
          simp only [FloatArray.tryFromAux]
          rw [if_pos (by omega)]
  | cons q qs ih =>
      intro i arr hi hne
      simp only [List.map_cons, List.cons_append]
      simp only [FloatArray.tryFromAux]
      rw [if_neg (by simp at hi; omega)]
      exact ih (i + 1) (arr.set i q) (by simp at hi ⊢; omega) hne

/-- Filling all-convertible items that fit leaves every slot at or past
the filled region unchanged and succeeds. -/
theorem tryFromAux_ok_padded :
    ∀ (qs : List ℚ) (i : Nat) (arr : List ℚ), arr.length = DIMENSIONS →
      i + qs.length ≤ DIMENSIONS →
      ∃ a : FloatArray, FloatArray.tryFromAux (qs.map Except.ok) i arr = .ok a ∧
        ∀ j, i + qs.length ≤ j → a.data.getD j 0 = arr.getD j 0 := by
  intro qs
  induction qs with
  | nil =>
      intro i arr hlen _
      refine ⟨⟨arr, hlen⟩, ?_, fun j _ => rfl⟩
      simp only [List.map_nil, FloatArray.tryFromAux]
      rw [dif_pos hlen]
  | cons q qs ih =>
      intro i arr hlen hfit
      simp only [List.length_cons] at hfit
      obtain ⟨a, ha, hpad⟩ := ih (i + 1) (arr.set i q)
        (by rw [List.length_set]; exact hlen) (by omega)
      refine ⟨a, ?_, ?_⟩
      · simp only [List.map_cons, FloatArray.tryFromAux]
        rw [if_neg (by omega)]
        exact ha
      · intro j hj
        simp only [List.length_cons] at hj
        rw [hpad j (by omega)]
        rw [List.getD_eq_getElem?_getD, List.getD_eq_getElem?_getD,
          List.getElem?_set_ne (by omega : i ≠ j)]

/-- C3: converting an input sequence of convertible values of length
`DIMENSIONS + 1` or more (first `DIMENSIONS` items convertible) fails with
the type error "point array too long" and produces no point, while a
convertible input shorter than `DIMENSIONS` succeeds with every trailing
slot zero-filled. -/
theorem point_dimension_enforcement :
    (∀ (qs : List ℚ) (rest : List (Except PyErr ℚ)),
      qs.length = DIMENSIONS → rest ≠ [] →
      FloatArray.tryFrom (qs.map Except.ok ++ rest)
        = .error (.typeError "point array too long")) ∧
    (∀ qs : List ℚ, qs.length < DIMENSIONS →
      ∃ a : FloatArray, FloatArray.tryFrom (qs.map Except.ok) = .ok a ∧
        ∀ j, qs.length ≤ j → a.get j = 0) := by
  constructor
  · intro qs rest hlen hne
    exact tryFromAux_too_long rest qs 0 (List.replicate DIMENSIONS 0)
      (by omega) hne
  · intro qs hlen
    obtain ⟨a, ha, hpad⟩ := tryFromAux_ok_padded qs 0
      (List.replicate DIMENSIONS 0) (by simp) (by omega)
    refine ⟨a, ha, fun j hj => ?_⟩
    rw [FloatArray.get, hpad j (by omega)]
    rcases Nat.lt_or_ge j DIMENSIONS with hcase | hcase
    · simp [List.getD, List.getElem?_replicate, hcase]
    · simp [List.getD, List.getElem?_eq_none
        (by simpa using hcase : (List.replicate DIMENSIONS (0:ℚ)).length ≤ j)]

/-- Witness for C3: a 301-item convertible input fails with the
"point array too long" type error; a 299-item input of ones converts, and
its final slot (position 299) is implicitly zero. -/
theorem point_dimension_enforcement_witness :
    FloatArray.tryFrom
        ((List.replicate DIMENSIONS (0 : ℚ)).map Except.ok ++ [Except.ok 0])
      = .error (.typeError "point array too long") ∧
    ∃ a : FloatArray,
      FloatArray.tryFrom ((List.replicate 299 (1 : ℚ)).map Except.ok) = .ok a ∧
      ∀ j, (List.replicate 299 (1 : ℚ)).length ≤ j → a.get j = 0 :=
  ⟨point_dimension_enforcement.1 (List.replicate DIMENSIONS 0) [Except.ok 0]
      (by simp) (by simp),
    point_dimension_enforcement.2 (List.replicate 299 1) (by simp)⟩

/-! ## Persistence codec round-trip -/

/-- Decoding after encoding a natural consumes exactly the encoding. -/
theorem decodeNat_encodeNat (n : Nat) (r : List Nat) :
    decodeNat (encodeNat n ++ r) = .ok (n, r) :=
  rfl

/-- Decoding after encoding an integer consumes exactly the encoding. -/
theorem decodeInt_encodeInt (i : Int) (r : List Nat) :
    decodeInt (encodeInt i ++ r) = .ok (i, r) := by
  cases i with
  | ofNat n => rfl
  | negSucc n => rfl

/-- Decoding after encoding a rational recovers it exactly. -/
theorem decodeRat_encodeRat (q : ℚ) (r : List Nat) :
    decodeRat (encodeRat q ++ r) = .ok (q, r) := by
  unfold decodeRat encodeRat
  rw [List.append_assoc, decodeInt_encodeInt]
  simp only [decodeNat_encodeNat]
  rw [Rat.num_div_den]

/-- Decoding `l.length` elements after their concatenated encodings
recovers the list, provided each element round-trips. -/
theorem decodeCount_encode {α : Type} (fe : α → List Nat)
    (fd : List Nat → Except String (α × List Nat))
    (hf : ∀ x r, fd (fe x ++ r) = .ok (x, r)) :
    ∀ (l : List α) (r : List Nat),
      decodeCount fd l.length ((l.map fe).flatten ++ r) = .ok (l, r) := by
  intro l
  induction l with
  | nil => intro r; rfl
  | cons x xs ih =>
      intro r
      simp only [List.map_cons, List.flatten_cons, List.length_cons]
      rw [List.append_assoc]
      simp only [decodeCount, hf, ih]

/-- The length-prefixed sequence encoding round-trips. -/
theorem decodeListWith_encodeListWith {α : Type} (fe : α → List Nat)
    (fd : List Nat → Except String (α × List Nat))
    (hf : ∀ x r, fd (fe x ++ r) = .ok (x, r))
    (l : List α) (r : List Nat) :
    decodeListWith fd (encodeListWith fe l ++ r) = .ok (l, r) := by
  unfold decodeListWith encodeListWith
  rw [List.append_assoc, decodeNat_encodeNat]
  exact decodeCount_encode fe fd hf l r

/-- The point payload encoding round-trips. -/
theorem decodeFloatArray_encodeFloatArray (a : FloatArray) (r : List Nat) :
    decodeFloatArray (encodeFloatArray a ++ r) = .ok (a, r) := by
  unfold decodeFloatArray encodeFloatArray
  simp only [decodeListWith_encodeListWith encodeRat decodeRat decodeRat_encodeRat]
  rw [dif_pos a.hlen]

/-- The engine blob encoding round-trips: decoding the persisted bytes of
any index recovers that index exactly, leaving the trailing stream. -/
theorem decodeHnsw_encodeHnsw (x : Hnsw) (r : List Nat) :
    decodeHnsw (encodeHnsw x ++ r) = .ok (x, r) := by
  unfold decodeHnsw encodeHnsw
  rw [List.append_assoc, List.append_assoc]
  simp only [decodeNat_encodeNat,
    decodeListWith_encodeListWith encodeFloatArray decodeFloatArray
      decodeFloatArray_encodeFloatArray,
    decodeListWith_encodeListWith (encodeListWith encodeNat)
      (decodeListWith decodeNat)
      (decodeListWith_encodeListWith encodeNat decodeNat decodeNat_encodeNat)]

/-- Loading the dumped bytes of any index restores it exactly. -/
theorem load_dump (x : Hnsw) : Hnsw.load (.ok x.dump) = .ok x := by
  have h := decodeHnsw_encodeHnsw x []
  rw [List.append_nil] at h
  unfold Hnsw.load Hnsw.dump
  simp only [h]

/-- C1: restoring from the bytes produced by persisting an index yields an
index observationally equivalent to it — the restored index exists and
every query against it (any probe, any buffer) produces exactly the same
ranked candidate results and stream as against the original. -/
theorem dump_load_roundtrip (x : Hnsw) :
    ∃ y : Hnsw, Hnsw.load (.ok x.dump) = .ok y ∧
      (∀ probe, Hnsw.searchResults y probe = Hnsw.searchResults x probe) ∧
      (∀ pt s, Hnsw.search y pt s = Hnsw.search x pt s) :=
  ⟨x, load_dump x, fun _ => rfl, fun _ _ => rfl⟩

/-- C8: `load` on an unreadable file propagates the I/O error unchanged;
`load` on malformed bytes fails with a value error prefixed
"deserialization error: ", a kind distinct from the I/O kind; and an index
is only ever produced from bytes that decode completely. -/
theorem load_error_discrimination :
    (∀ e, Hnsw.load (.error e) = .error (.osError e)) ∧
    (∀ bytes msg, decodeHnsw bytes = .error msg →
      Hnsw.load (.ok bytes)
        = .error (.valueError ("deserialization error: " ++ msg))) ∧
    (∀ e msg, PyErr.osError e ≠ PyErr.valueError msg) ∧
    (∀ file h, Hnsw.load file = .ok h →
      ∃ bytes rest, file = .ok bytes ∧ decodeHnsw bytes = .ok (h, rest)) := by
  refine ⟨fun e => rfl, ?_, ?_, ?_⟩
  case refine_2 =>
    intro e msg hne
    cases hne
  · intro bytes msg hdec
    simp only [Hnsw.load, hdec]
  · intro file h hload
    cases file with
    | error e => simp [Hnsw.load] at hload
    | ok bytes =>
        refine ⟨bytes, ?_⟩
        simp only [Hnsw.load] at hload
        cases hdec : decodeHnsw bytes with
        | error msg => rw [hdec] at hload; simp at hload
        | ok p =>
            obtain ⟨y, rest⟩ := p
            rw [hdec] at hload
            simp only [Except.ok.injEq] at hload
            exact ⟨rest, rfl, by rw [hload]⟩

/-- Witness for C8: empty bytes fail to decode and `load` reports the
prefixed deserialization error; a dumped tiny index is only accepted
because its bytes decode completely. -/
theorem load_error_discrimination_witness :
    Hnsw.load (.ok [])
      = .error (.valueError ("deserialization error: " ++
          "unexpected end of input")) ∧
    ∃ bytes rest, (Except.ok (Hnsw.dump { points := [], graph := [], efSearch := 5 })
        : Except String (List Nat)) = .ok bytes ∧
      decodeHnsw bytes = .ok ({ points := [], graph := [], efSearch := 5 }, rest) :=
  ⟨load_error_discrimination.2.1 [] "unexpected end of input" rfl,
    load_error_discrimination.2.2.2
      (.ok (Hnsw.dump { points := [], graph := [], efSearch := 5 }))
      { points := [], graph := [], efSearch := 5 } rfl⟩

/-! ## Parameter defaults -/

/-- C7: the default heuristic policy — both the Python-visible
`Heuristic()` constructor and the binding's `Default` implementation —
has `extend_candidates = false` and `keep_pruned = true`. -/
theorem heuristic_default_policy :
    Heuristic.new = { extend_candidates := false, keep_pruned := true } ∧
    Heuristic.default = { extend_candidates := false, keep_pruned := true } :=
  ⟨rfl, rfl⟩

/-- C9: a freshly constructed `Config` has `heuristic` set to `Some` of
the default heuristic rather than `None`, so the derived engine builder
selects heuristic pruning with `extend_candidates = false,
keep_pruned = true`; its four numeric fields are copied from the library
builder's defaults. -/
theorem config_new_defaults :
    Config.new.heuristic = some Heuristic.default ∧
    Config.new.heuristic ≠ none ∧
    (Builder.fromConfig Config.new).heuristic
      = some { extend_candidates := false, keep_pruned := true } ∧
    Config.new.ef_search = Builder.default.ef_search ∧
    Config.new.ef_construction = Builder.default.ef_construction ∧
    Config.new.ml = Builder.default.ml ∧
    Config.new.seed = Builder.default.seed := by
  refine ⟨rfl, ?_, rfl, rfl, rfl, rfl, rfl⟩
  intro h
  simp [Config.new] at h

end InstantDistance
